import Mathlib

/-
Verification of the natural-language specification of thezombies against a shallow
embedding of thezombies/tasks.py. Pure data flow is translated into Lean functions;
database effects are modelled by explicit state passing over a DB value; a Python
exception escaping a task is modelled by the error branch of Except. The external
collaborators (requests, simplejson, ujson, jsonschema) are parameters of the
embedding, gathered in the Ext structure.
-/

set_option maxHeartbeats 1000000
set_option maxRecDepth 8000

namespace Thezombies

/-- JSON values as decoded by the json libraries (simplejson or ujson). -/
inductive Json where
  | null : Json
  | bool : Bool → Json
  | num : Int → Json
  | str : String → Json
  | arr : List Json → Json
  | obj : List (String × Json) → Json

mutual

/-- Decidable equality of JSON values (the derive handler does not support the nested
occurrence of Json under List). -/
def Json.decEq : (a b : Json) → Decidable (a = b)
  | .null, .null => isTrue rfl
  | .bool a, .bool b =>
      if h : a = b then isTrue (by rw [h])
      else isFalse (by intro hh; injection hh; contradiction)
  | .num a, .num b =>
      if h : a = b then isTrue (by rw [h])
      else isFalse (by intro hh; injection hh; contradiction)
  | .str a, .str b =>
      if h : a = b then isTrue (by rw [h])
      else isFalse (by intro hh; injection hh; contradiction)
  | .arr xs, .arr ys =>
      match Json.decEqList xs ys with
      | isTrue h => isTrue (by rw [h])
      | isFalse h => isFalse (by intro hh; injection hh; contradiction)
  | .obj xs, .obj ys =>
      match Json.decEqFields xs ys with
      | isTrue h => isTrue (by rw [h])
      | isFalse h => isFalse (by intro hh; injection hh; contradiction)
  | .null, .bool _ => isFalse (by intro h; exact Json.noConfusion h)
  | .null, .num _ => isFalse (by intro h; exact Json.noConfusion h)
  | .null, .str _ => isFalse (by intro h; exact Json.noConfusion h)
  | .null, .arr _ => isFalse (by intro h; exact Json.noConfusion h)
  | .null, .obj _ => isFalse (by intro h; exact Json.noConfusion h)
  | .bool _, .null => isFalse (by intro h; exact Json.noConfusion h)
  | .bool _, .num _ => isFalse (by intro h; exact Json.noConfusion h)
  | .bool _, .str _ => isFalse (by intro h; exact Json.noConfusion h)
  | .bool _, .arr _ => isFalse (by intro h; exact Json.noConfusion h)
  | .bool _, .obj _ => isFalse (by intro h; exact Json.noConfusion h)
  | .num _, .null => isFalse (by intro h; exact Json.noConfusion h)
  | .num _, .bool _ => isFalse (by intro h; exact Json.noConfusion h)
  | .num _, .str _ => isFalse (by intro h; exact Json.noConfusion h)
  | .num _, .arr _ => isFalse (by intro h; exact Json.noConfusion h)
  | .num _, .obj _ => isFalse (by intro h; exact Json.noConfusion h)
  | .str _, .null => isFalse (by intro h; exact Json.noConfusion h)
  | .str _, .bool _ => isFalse (by intro h; exact Json.noConfusion h)
  | .str _, .num _ => isFalse (by intro h; exact Json.noConfusion h)
  | .str _, .arr _ => isFalse (by intro h; exact Json.noConfusion h)
  | .str _, .obj _ => isFalse (by intro h; exact Json.noConfusion h)
  | .arr _, .null => isFalse (by intro h; exact Json.noConfusion h)
  | .arr _, .bool _ => isFalse (by intro h; exact Json.noConfusion h)
  | .arr _, .num _ => isFalse (by intro h; exact Json.noConfusion h)
  | .arr _, .str _ => isFalse (by intro h; exact Json.noConfusion h)
  | .arr _, .obj _ => isFalse (by intro h; exact Json.noConfusion h)
  | .obj _, .null => isFalse (by intro h; exact Json.noConfusion h)
  | .obj _, .bool _ => isFalse (by intro h; exact Json.noConfusion h)
  | .obj _, .num _ => isFalse (by intro h; exact Json.noConfusion h)
  | .obj _, .str _ => isFalse (by intro h; exact Json.noConfusion h)
  | .obj _, .arr _ => isFalse (by intro h; exact Json.noConfusion h)

/-- Decidable equality of JSON value lists. -/
def Json.decEqList : (a b : List Json) → Decidable (a = b)
  | [], [] => isTrue rfl
  | [], _ :: _ => isFalse (by intro h; exact List.noConfusion h)
  | _ :: _, [] => isFalse (by intro h; exact List.noConfusion h)
  | x :: xs, y :: ys =>
      match Json.decEq x y, Json.decEqList xs ys with
      | isTrue h1, isTrue h2 => isTrue (by rw [h1, h2])
      | isFalse h1, _ => isFalse (by intro hh; injection hh; contradiction)
      | _, isFalse h2 => isFalse (by intro hh; injection hh; contradiction)

/-- Decidable equality of JSON object field lists. -/
def Json.decEqFields : (a b : List (String × Json)) → Decidable (a = b)
  | [], [] => isTrue rfl
  | [], _ :: _ => isFalse (by intro h; exact List.noConfusion h)
  | _ :: _, [] => isFalse (by intro h; exact List.noConfusion h)
  | (k, v) :: xs, (l, w) :: ys =>
      if h1 : k = l then
        match Json.decEq v w, Json.decEqFields xs ys with
        | isTrue h2, isTrue h3 => isTrue (by rw [h1, h2, h3])
        | isFalse h2, _ =>
            isFalse (by intro hh; injection hh with h4 h5; injection h4; contradiction)
        | _, isFalse h3 =>
            isFalse (by intro hh; injection hh; contradiction)
      else isFalse (by intro hh; injection hh with h4 h5; injection h4; contradiction)

end

instance : DecidableEq Json := Json.decEq

/-- Python truthiness of a JSON value. -/
def Json.truthy : Json → Bool
  | .null => false
  | .bool b => b
  | .num n => n != 0
  | .str s => s != ""
  | .arr xs => !xs.isEmpty
  | .obj fs => !fs.isEmpty

/-- First binding of a key in a JSON object field list. -/
def jsonLookup : List (String × Json) → String → Option Json
  | [], _ => none
  | (k, v) :: rest, key => if k = key then some v else jsonLookup rest key

/-- Python dict.get on a JSON object; none when the value is not an object or the key is absent. -/
def Json.get : Json → String → Option Json
  | .obj fs, key => jsonLookup fs key
  | _, _ => none

/-- Python membership test `key in value` for a JSON object. -/
def Json.hasField : Json → String → Bool
  | .obj fs, key => (jsonLookup fs key).isSome
  | _, _ => false

/-- Python len() of a JSON value; none when the value has no length. -/
def Json.pyLen : Json → Option Nat
  | .str s => some s.length
  | .arr xs => some xs.length
  | .obj fs => some fs.length
  | _ => none

/-- Python iteration over a JSON value: lists yield their elements, dicts yield their
keys, strings yield one-character strings; other values are not iterable. -/
def Json.pyIter : Json → Option (List Json)
  | .arr xs => some xs
  | .obj fs => some (fs.map (fun kv => Json.str kv.1))
  | .str s => some (s.toList.map (fun c => Json.str (String.mk [c])))
  | _ => none

/-- Rendering of a JSON value inside a format string, as Python str() does. Container
rendering is abbreviated; the repository only ever formats string or missing titles. -/
def Json.formatStr : Json → String
  | .null => "None"
  | .bool b => if b then "True" else "False"
  | .num n => toString n
  | .str s => s
  | .arr _ => "[...]"
  | .obj _ => "\x7b...\x7d"

/-- Creation timestamps at the minute precision used by datetimes(created_at, minute). -/
structure Timestamp where
  year : Nat
  month : Nat
  day : Nat
  minuteOfDay : Nat
deriving DecidableEq

/-- Linear key giving the chronological order of timestamps. -/
def Timestamp.key (t : Timestamp) : Nat :=
  t.minuteOfDay + 1441 * (t.day + 32 * (t.month + 13 * t.year))

/-- Two timestamps fall on the same calendar day. -/
def Timestamp.sameCalendarDay (a b : Timestamp) : Bool :=
  a.year == b.year && a.month == b.month && a.day == b.day

/-- The observable parts of a requests Response used by the pipeline. -/
structure HttpResp where
  url : String
  status_code : Nat
  content : Option String
  encoding : Option String
  apparent_encoding : String
deriving DecidableEq

/-- requests Response.ok holds when the status code is below 400. -/
def HttpResp.ok (r : HttpResp) : Bool := r.status_code < 400

/-- A caught Python exception, reduced to its class name and message. For ValidationError
the schema fragment that add_error folds into the stored string is taken to be part of
the message field of this model. -/
structure PyErr where
  name : String
  message : String
deriving DecidableEq

/-- The string stored by ResultDict.add_error: class name, colon, message. -/
def PyErr.format (e : PyErr) : String := e.name ++ ": " ++ e.message

/-- Values stored in the payload of a ResultDict. -/
inductive Val where
  | vNone : Val
  | vBool : Bool → Val
  | vInt : Int → Val
  | vStr : String → Val
  | vJson : Json → Val
  | vResp : HttpResp → Val
  | vDict : List (String × Val) → Val

mutual

/-- Decidable equality of payload values (manual for the same reason as Json.decEq). -/
def Val.decEq : (a b : Val) → Decidable (a = b)
  | .vNone, .vNone => isTrue rfl
  | .vBool a, .vBool b =>
      if h : a = b then isTrue (by rw [h])
      else isFalse (by intro hh; injection hh; contradiction)
  | .vInt a, .vInt b =>
      if h : a = b then isTrue (by rw [h])
      else isFalse (by intro hh; injection hh; contradiction)
  | .vStr a, .vStr b =>
      if h : a = b then isTrue (by rw [h])
      else isFalse (by intro hh; injection hh; contradiction)
  | .vJson a, .vJson b =>
      if h : a = b then isTrue (by rw [h])
      else isFalse (by intro hh; injection hh; contradiction)
  | .vResp a, .vResp b =>
      if h : a = b then isTrue (by rw [h])
      else isFalse (by intro hh; injection hh; contradiction)
  | .vDict a, .vDict b =>
      match Val.decEqDict a b with
      | isTrue h => isTrue (by rw [h])
      | isFalse h => isFalse (by intro hh; injection hh; contradiction)
  | .vNone, .vBool _ => isFalse (by intro h; exact Val.noConfusion h)
  | .vNone, .vInt _ => isFalse (by intro h; exact Val.noConfusion h)
  | .vNone, .vStr _ => isFalse (by intro h; exact Val.noConfusion h)
  | .vNone, .vJson _ => isFalse (by intro h; exact Val.noConfusion h)
  | .vNone, .vResp _ => isFalse (by intro h; exact Val.noConfusion h)
  | .vNone, .vDict _ => isFalse (by intro h; exact Val.noConfusion h)
  | .vBool _, .vNone => isFalse (by intro h; exact Val.noConfusion h)
  | .vBool _, .vInt _ => isFalse (by intro h; exact Val.noConfusion h)
  | .vBool _, .vStr _ => isFalse (by intro h; exact Val.noConfusion h)
  | .vBool _, .vJson _ => isFalse (by intro h; exact Val.noConfusion h)
  | .vBool _, .vResp _ => isFalse (by intro h; exact Val.noConfusion h)
  | .vBool _, .vDict _ => isFalse (by intro h; exact Val.noConfusion h)
  | .vInt _, .vNone => isFalse (by intro h; exact Val.noConfusion h)
  | .vInt _, .vBool _ => isFalse (by intro h; exact Val.noConfusion h)
  | .vInt _, .vStr _ => isFalse (by intro h; exact Val.noConfusion h)
  | .vInt _, .vJson _ => isFalse (by intro h; exact Val.noConfusion h)
  | .vInt _, .vResp _ => isFalse (by intro h; exact Val.noConfusion h)
  | .vInt _, .vDict _ => isFalse (by intro h; exact Val.noConfusion h)
  | .vStr _, .vNone => isFalse (by intro h; exact Val.noConfusion h)
  | .vStr _, .vBool _ => isFalse (by intro h; exact Val.noConfusion h)
  | .vStr _, .vInt _ => isFalse (by intro h; exact Val.noConfusion h)
  | .vStr _, .vJson _ => isFalse (by intro h; exact Val.noConfusion h)
  | .vStr _, .vResp _ => isFalse (by intro h; exact Val.noConfusion h)
  | .vStr _, .vDict _ => isFalse (by intro h; exact Val.noConfusion h)
  | .vJson _, .vNone => isFalse (by intro h; exact Val.noConfusion h)
  | .vJson _, .vBool _ => isFalse (by intro h; exact Val.noConfusion h)
  | .vJson _, .vInt _ => isFalse (by intro h; exact Val.noConfusion h)
  | .vJson _, .vStr _ => isFalse (by intro h; exact Val.noConfusion h)
  | .vJson _, .vResp _ => isFalse (by intro h; exact Val.noConfusion h)
  | .vJson _, .vDict _ => isFalse (by intro h; exact Val.noConfusion h)
  | .vResp _, .vNone => isFalse (by intro h; exact Val.noConfusion h)
  | .vResp _, .vBool _ => isFalse (by intro h; exact Val.noConfusion h)
  | .vResp _, .vInt _ => isFalse (by intro h; exact Val.noConfusion h)
  | .vResp _, .vStr _ => isFalse (by intro h; exact Val.noConfusion h)
  | .vResp _, .vJson _ => isFalse (by intro h; exact Val.noConfusion h)
  | .vResp _, .vDict _ => isFalse (by intro h; exact Val.noConfusion h)
  | .vDict _, .vNone => isFalse (by intro h; exact Val.noConfusion h)
  | .vDict _, .vBool _ => isFalse (by intro h; exact Val.noConfusion h)
  | .vDict _, .vInt _ => isFalse (by intro h; exact Val.noConfusion h)
  | .vDict _, .vStr _ => isFalse (by intro h; exact Val.noConfusion h)
  | .vDict _, .vJson _ => isFalse (by intro h; exact Val.noConfusion h)
  | .vDict _, .vResp _ => isFalse (by intro h; exact Val.noConfusion h)

/-- Decidable equality of payload dicts. -/
def Val.decEqDict : (a b : List (String × Val)) → Decidable (a = b)
  | [], [] => isTrue rfl
  | [], _ :: _ => isFalse (by intro h; exact List.noConfusion h)
  | _ :: _, [] => isFalse (by intro h; exact List.noConfusion h)
  | (k, v) :: xs, (l, w) :: ys =>
      if h1 : k = l then
        match Val.decEq v w, Val.decEqDict xs ys with
        | isTrue h2, isTrue h3 => isTrue (by rw [h1, h2, h3])
        | isFalse h2, _ =>
            isFalse (by intro hh; injection hh with h4 h5; injection h4; contradiction)
        | _, isFalse h3 =>
            isFalse (by intro hh; injection hh; contradiction)
      else isFalse (by intro hh; injection hh with h4 h5; injection h4; contradiction)

end

instance : DecidableEq Val := Val.decEq

/-- A Python dict with string keys, as an association list without duplicate keys. -/
abbrev Dict := List (String × Val)

/-- Dictionary lookup. -/
def dictGet : Dict → String → Option Val
  | [], _ => none
  | (k, v) :: rest, key => if k = key then some v else dictGet rest key

/-- Dictionary assignment: replaces the binding in place or appends a new one. -/
def dictSet : Dict → String → Val → Dict
  | [], key, v => [(key, v)]
  | (k, w) :: rest, key, v =>
      if k = key then (key, v) :: rest else (k, w) :: dictSet rest key v

/-- Python membership test on a dict. -/
def dictHasKey (d : Dict) (key : String) : Bool := (dictGet d key).isSome

/-- Python dict.pop(key, None). -/
def dictDel : Dict → String → Dict
  | [], _ => []
  | (k, w) :: rest, key => if k = key then rest else (k, w) :: dictDel rest key

/-- Python dict.update(other). -/
def dictUpdate (d other : Dict) : Dict :=
  other.foldl (fun acc kv => dictSet acc kv.1 kv.2) d

/-- Python truthiness of a payload value. -/
def Val.truthy : Val → Bool
  | .vNone => false
  | .vBool b => b
  | .vInt n => n != 0
  | .vStr s => s != ""
  | .vJson j => j.truthy
  | .vResp _ => true
  | .vDict d => !d.isEmpty

/-- Truthiness of dict.get(key, None): an absent key reads as None, which is falsy. -/
def optTruthy : Option Val → Bool
  | none => false
  | some v => v.truthy

/-- ResultDict (tasks.py lines 33-63): a dict payload together with the errors list.
The mirror entry that the constructor and add_error maintain under the errors key of
the dict always equals the errors attribute at task boundaries, so the model keeps the
error list as a separate field beside the payload. -/
structure ResultDict where
  data : Dict
  errors : List String
deriving DecidableEq

/-- ResultDict(data) for a plain dict argument: the payload is copied, the error list is fresh. -/
def ResultDict.ofData (d : Dict) : ResultDict := ⟨d, []⟩

/-- ResultDict(data) where data is itself a ResultDict and no explicit errors are given:
a ResultDict always carries its errors key, so the truthiness test on data passes and
hasattr(data, errors) holds; the payload is copied and the error list of data is
extended onto the fresh list, carrying it forward in order. -/
def ResultDict.ofResult (r : ResultDict) : ResultDict := ⟨r.data, r.errors⟩

/-- Lookup in the payload, as taskarg.get(key, None). -/
def ResultDict.get (r : ResultDict) (key : String) : Option Val := dictGet r.data key

/-- Item assignment on the payload. -/
def ResultDict.set (r : ResultDict) (key : String) (v : Val) : ResultDict :=
  ⟨dictSet r.data key v, r.errors⟩

/-- Membership test on the payload. -/
def ResultDict.hasKey (r : ResultDict) (key : String) : Bool := dictHasKey r.data key

/-- add_error (tasks.py lines 47-59): appends the formatted error to the error list.
Every call site passes a caught exception object, which is truthy, so the guard on the
error argument always passes. -/
def ResultDict.add_error (r : ResultDict) (e : PyErr) : ResultDict :=
  ⟨r.data, r.errors ++ [e.format]⟩

/-- Outcome of requests.Request.prepare for a given url: success with the prepared url,
a MissingSchema error when the url lacks a scheme, or another preparation error. -/
inductive PrepResult where
  | ok : String → PrepResult
  | missingSchema : PyErr → PrepResult
  | otherError : PyErr → PrepResult
deriving DecidableEq

/-- External collaborators of the pipeline (requests, simplejson, ujson, jsonschema):
the embedding is parametric in their behavior. catalog_schema is the schema loaded at
process start from the configured path, none when no path is configured; iterErrors is
validator.iter_errors of the Draft4 validator built over that schema. -/
structure Ext where
  prepare : String → PrepResult
  httpRequest : String → String → Except PyErr HttpResp
  jsonLoads : String → String → Except PyErr Json
  decodeReplace : String → String → String
  ujsonLoads : String → Except PyErr Json
  catalog_schema : Option Json
  iterErrors : Json → List PyErr

/-- SCHEMA_ERROR_LIMIT (tasks.py line 28). -/
def SCHEMA_ERROR_LIMIT : Nat := 100

/-- Python truthiness of the loaded schema in the guard of validate_json_catalog. -/
def schemaTruthy : Option Json → Bool
  | none => false
  | some j => j.truthy

/-- jsonschema defines is_valid as the absence of any iter_errors result. -/
def validatorIsValid (ext : Ext) (j : Json) : Bool := (ext.iterErrors j).isEmpty

/-- URLInspection rows. The models module of the repository is not among the sources;
the fields follow the InspectionRecord description of the spec. -/
structure Inspection where
  id : Int
  requested_url : String
  created_at : Timestamp
  parent_id : Option Int
  report_id : Option Int
  status_code : Option Nat
  content : Option String
  encoding : Option String
  apparent_encoding : String
  errors : List String
  info : Dict
deriving DecidableEq

/-- Report rows, per the ReportRecord description of the spec. -/
structure ReportRec where
  id : Int
  agency_id : Int
  url : Option String
  report_type : String
  messages : List String
deriving DecidableEq

/-- Report.GENERIC_REPORT of the models module. -/
def Report.GENERIC_REPORT : String := "GENERIC"

/-- Report.DATA_CATALOG_CRAWL of the models module. -/
def Report.DATA_CATALOG_CRAWL : String := "DATA_CATALOG_CRAWL"

/-- Report.DATA_CATALOG_VALIDATION of the models module. -/
def Report.DATA_CATALOG_VALIDATION : String := "DATA_CATALOG_VALIDATION"

/-- Persistent state of the storage collaborator. -/
structure DB where
  inspections : List Inspection
  reports : List ReportRec
  nextInspectionId : Int
  nextReportId : Int
deriving DecidableEq

/-- Storage lookup of an inspection row by id, as URLInspection.objects.get(id). -/
def DB.getInspection? (db : DB) (i : Int) : Option Inspection :=
  db.inspections.find? (fun r => r.id == i)

/-- Storage lookup of a report row by id, as Report.objects.get(id). -/
def DB.getReport? (db : DB) (i : Int) : Option ReportRec :=
  db.reports.find? (fun r => r.id == i)

/-- Django save() on a fetched row: the in-memory copy overwrites the stored row with
the same id. A row mutated in memory without save() leaves the storage unchanged. -/
def DB.saveInspection (db : DB) (row : Inspection) : DB :=
  ⟨db.inspections.map (fun r => if r.id == row.id then row else r),
   db.reports, db.nextInspectionId, db.nextReportId⟩

/-- Django save() for report rows. -/
def DB.saveReport (db : DB) (row : ReportRec) : DB :=
  ⟨db.inspections,
   db.reports.map (fun r => if r.id == row.id then row else r),
   db.nextInspectionId, db.nextReportId⟩

/-- Report.objects.create: persists a fresh report row with an empty message list. -/
def DB.createReport (db : DB) (agency : Int) (rtype : String) (url : Option String) :
    DB × ReportRec :=
  let row : ReportRec := ⟨db.nextReportId, agency, url, rtype, []⟩
  (⟨db.inspections, db.reports ++ [row], db.nextInspectionId, db.nextReportId + 1⟩, row)

/-- Modelled from the spec: URLInspection.objects.create_from_response is defined in the
models module of the repository, which is not among the sources. Per the Inspection
Store Bridge section it persists a new inspection record built from the fetch result:
status, content and encoding, with content omitted when save_content is false; the
record has no parent and no report link until the caller sets one. -/
def DB.create_from_response (db : DB) (resp : Option HttpResp) (url : String)
    (now : Timestamp) (save_content : Bool) : DB × Inspection :=
  let row : Inspection :=
    ⟨db.nextInspectionId, url, now, none, none,
     resp.map (fun r => r.status_code),
     if save_content then resp.bind (fun r => r.content) else none,
     resp.bind (fun r => r.encoding),
     (resp.map (fun r => r.apparent_encoding)).getD "",
     [], []⟩
  (⟨db.inspections ++ [row], db.reports, db.nextInspectionId + 1, db.nextReportId⟩, row)

/-- First element maximizing the key, none for the empty list. -/
def argmaxKey (f : α → Nat) : List α → Option α
  | [] => none
  | x :: rest =>
      match argmaxKey f rest with
      | none => some x
      | some m => if f m > f x then some m else some x

/-- Modelled from the spec: latest() on the minute-precision datetimes query set of
get_or_create_inspection returns the most recent stored timestamp. -/
def latestTimestamp : List Timestamp → Option Timestamp :=
  argmaxKey Timestamp.key

/-- Modelled from the spec: latest() on an inspection query set returns the most recent
record by created_at (get_latest_by is declared in the models module, which is not among
the sources; the spec says the most recent matching record is chosen). -/
def latestInspection : List Inspection → Option Inspection :=
  argmaxKey (fun i => i.created_at.key)

/-- check_and_correct_url (tasks.py lines 71-94). The method argument only selects the
verb of the built request and does not affect url preparation, so the model elides it.
The task body catches every exception, so the embedding is a total function. -/
def check_and_correct_url (ext : Ext) (url : String) : ResultDict :=
  let returnval := ResultDict.ofData [("initial_url", Val.vStr url)]
  match ext.prepare url with
  | .ok _ => returnval
  | .missingSchema e =>
      let returnval := returnval.add_error e
      let new_url := "http://" ++ url
      match ext.prepare new_url with
      | .ok prepared => returnval.set "corrected_url" (Val.vStr prepared)
      | .missingSchema e2 => returnval.add_error e2
      | .otherError e2 => returnval.add_error e2
  | .otherError e => returnval.add_error e

/-- request_url (tasks.py lines 96-118): fetches through the shared session after the
url check, recording the transport error or the bad-status error. -/
def request_url (ext : Ext) (url : String) (method : String) : ResultDict :=
  let checker_result := check_and_correct_url ext url
  let valid_url :=
    match checker_result.get "corrected_url" with
    | some (Val.vStr u) => u
    | _ => url
  let returnval := ResultDict.ofResult checker_result
  match ext.httpRequest method valid_url with
  | .error e => (returnval.add_error e).set "response" Val.vNone
  | .ok resp =>
      let returnval :=
        if 400 ≤ resp.status_code then
          returnval.add_error ⟨"HTTPError", toString resp.status_code ++ " error for url " ++ resp.url⟩
        else returnval
      returnval.set "response" (Val.vResp resp)

/-- Stored inspections the lookup of get_or_create_inspection can reuse: rows for the
exact url, with no parent, whose created_at day of month equals the day of month of the
latest stored inspection timestamp across all urls (the recent_responses query of
tasks.py lines 126-130; the created_at__day lookup compares the day of month only). -/
def reuse_candidates (db : DB) (url : String) : List Inspection :=
  match latestTimestamp (db.inspections.map (fun r => r.created_at)) with
  | none => []
  | some latest_date =>
      db.inspections.filter (fun r =>
        r.requested_url == url && r.created_at.day == latest_date.day && r.parent_id.isNone)

/-- get_or_create_inspection (tasks.py lines 120-142). When the reuse query is empty or
no inspections are stored at all, the url is fetched with GET and a new record is
persisted inside the transaction; the fresh ResultDict only carries the record id and
the url. -/
def get_or_create_inspection (ext : Ext) (now : Timestamp) (db : DB) (url : String) :
    DB × ResultDict :=
  match latestInspection (reuse_candidates db url) with
  | some response =>
      (db, ResultDict.ofData [("response_id", Val.vInt response.id), ("url", Val.vStr url)])
  | none =>
      let fetch_val := request_url ext url "GET"
      let resp_data : Option HttpResp :=
        match fetch_val.get "response" with
        | some (Val.vResp r) => some r
        | _ => none
      let created := db.create_from_response resp_data url now true
      (created.1,
       ResultDict.ofData [("response_id", Val.vInt created.2.id), ("url", Val.vStr url)])

/-- Encoding extraction of parse_json: taskarg.get(encoding, iso-8859-1). The key, when
present, always holds an encoding name string at the call sites. -/
def parse_json_encoding (taskarg : ResultDict) : String :=
  match taskarg.get "encoding" with
  | some (Val.vStr s) => s
  | _ => "iso-8859-1"

/-- parse_json (tasks.py lines 324-353): strict decode, then lenient decode of the
replacement-decoded text, recording each failure; the json and parse_errors keys are
set on the way out. A content value that is neither a string nor None would escape the
fallback handler as an uncaught AttributeError, modelled by the error branch. -/
def parse_json (ext : Ext) (taskarg : ResultDict) : Except PyErr ResultDict :=
  let encoding := parse_json_encoding taskarg
  let returnval := ResultDict.ofData []
  match taskarg.get "content" with
  | none =>
      Except.ok (((returnval.add_error ⟨"Exception", "No content to parse"⟩).set
        "json" Val.vNone).set "parse_errors" (Val.vBool false))
  | some Val.vNone =>
      Except.ok (((returnval.add_error ⟨"Exception", "No content to parse"⟩).set
        "json" Val.vNone).set "parse_errors" (Val.vBool false))
  | some (Val.vStr content) =>
      match ext.jsonLoads content encoding with
      | .ok jsondata =>
          Except.ok ((returnval.set "json" (Val.vJson jsondata)).set
            "parse_errors" (Val.vBool false))
      | .error e =>
          let returnval := returnval.add_error e
          let content_str := ext.decodeReplace content encoding
          match ext.ujsonLoads content_str with
          | .ok jsondata =>
              Except.ok ((returnval.set "json" (Val.vJson jsondata)).set
                "parse_errors" (Val.vBool true))
          | .error e2 =>
              Except.ok (((returnval.add_error e2).set "json" Val.vNone).set
                "parse_errors" (Val.vBool true))
  | some _ => Except.error ⟨"AttributeError", "content is not string data"⟩

/-- validate_json_catalog (tasks.py lines 381-402). The response_info dict fetched from
the task argument is the same object stored under the response_info key of the copied
ResultDict, so setting is_valid_data_catalog on it is visible in the result exactly
when the key is present (the final update call updates that dict with itself when
present, and a discarded fresh dict otherwise). Validation runs only when the parsed
value and the loaded schema are both truthy. -/
def validate_json_catalog (ext : Ext) (taskarg : ResultDict) : ResultDict :=
  let returnval := ResultDict.ofResult taskarg
  let validated : Bool × ResultDict :=
    match taskarg.get "json" with
    | some (Val.vJson jsondata) =>
        if jsondata.truthy && schemaTruthy ext.catalog_schema then
          if validatorIsValid ext jsondata then (true, returnval)
          else
            (false,
             ((ext.iterErrors jsondata).take SCHEMA_ERROR_LIMIT).foldl
               ResultDict.add_error returnval)
        else (false, returnval)
    | _ => (false, returnval)
  let returnval := validated.2
  let returnval :=
    match returnval.get "response_info" with
    | some (Val.vDict d) =>
        returnval.set "response_info"
          (Val.vDict (dictSet d "is_valid_data_catalog" (Val.vBool validated.1)))
    | _ => returnval
  returnval.set "report_type" (Val.vStr Report.DATA_CATALOG_VALIDATION)

/-- Integer read of an id value fetched from a payload. -/
def idOfVal : Option Val → Int
  | some (Val.vInt n) => n
  | _ => 0

/-- make_task (tasks.py lines 187-194): builds a check-task dict from one url field of
the given item when that field holds a truthy value. -/
def make_task (field : String) (item : Json) (orig_task : ResultDict) : Option ResultDict :=
  match item.get field with
  | some url =>
      if url.truthy then
        some (((ResultDict.ofResult orig_task).set "url" (Val.vJson url)).set
          "urlType" (Val.vStr field))
      else none
  | none => none

/-- find_tasks (tasks.py lines 196-207): collects the check-task dicts of the url
fields present in the item, in field order. -/
def find_tasks (item : Json) (url_fields : List String) (taskarg : ResultDict) :
    List ResultDict :=
  url_fields.foldl
    (fun tasks field =>
      if item.hasField field then
        match make_task field item taskarg with
        | some t => tasks ++ [t]
        | none => tasks
      else tasks)
    []

/-- inspect_data_catalog_item (tasks.py lines 180-236). Returns the updated storage and
the task dicts dispatched to inspect_data_catalog_item_url. The item_info assignment at
line 212 dereferences the item before the guard on it, so a missing or non-object item
raises. In the distribution loop the body applies find_tasks to the catalog item again,
not to the loop variable d, which the source never uses. -/
def inspect_data_catalog_item (db : DB) (taskarg : ResultDict) :
    Except PyErr (DB × List ResultDict) :=
  match taskarg.get "item" with
  | some (Val.vJson item) =>
      match item with
      | Json.obj _ =>
          let report_id := taskarg.get "report_id"
          let meta_fields := ["title", "accessLevel", "publisher", "modified"]
          let item_info : Dict := meta_fields.map (fun k =>
            (k, match item.get k with
                | some v => Val.vJson v
                | none => Val.vNone))
          let taskarg := taskarg.set "item_info" (Val.vDict item_info)
          let item_title :=
            match item.get "title" with
            | some v => v.formatStr
            | none => "No title provided."
          if item.truthy then
            let url_fields := ["accessURL", "webService"]
            let base := find_tasks item url_fields taskarg
            let distributed : Except PyErr (List ResultDict) :=
              if item.hasField "distribution" then
                match item.get "distribution" with
                | some dist =>
                    if dist.truthy then
                      match dist.pyIter with
                      | some elems =>
                          Except.ok (elems.foldl
                            (fun acc _ => acc ++ find_tasks item url_fields taskarg) [])
                      | none => Except.error ⟨"TypeError", "distribution is not iterable"⟩
                    else Except.ok []
                | none => Except.ok []
              else Except.ok []
            match distributed with
            | .error e => Except.error e
            | .ok extra =>
                let task_args := base ++ extra
                if task_args.length > 0 then Except.ok (db, task_args)
                else
                  if optTruthy report_id then
                    match db.getReport? (idOfVal report_id) with
                    | some report =>
                        let updated : ReportRec :=
                          ⟨report.id, report.agency_id, report.url, report.report_type,
                           report.messages ++
                             ["No urls found for catalog item titled \x27" ++ item_title ++ "\x27"]⟩
                        Except.ok (db.saveReport updated, [])
                    | none =>
                        Except.error ⟨"DoesNotExist", "Report matching query does not exist."⟩
                  else Except.ok (db, [])
          else Except.ok (db, [])
      | _ => Except.error ⟨"AttributeError", "item has no attribute get"⟩
  | some Val.vNone => Except.error ⟨"AttributeError", "item has no attribute get"⟩
  | some _ => Except.error ⟨"AttributeError", "item has no attribute get"⟩
  | none => Except.error ⟨"AttributeError", "item has no attribute get"⟩

/-- create_data_crawl_report (tasks.py lines 144-178). Returns the updated storage, the
task dicts dispatched to inspect_data_catalog_item, and the returned ResultDict. The
report row is created and persisted in both branches; the item-count message of the
json branch is appended and saved, while in the no-json branch the failure message is
appended only to the in-memory report object and report.save() is never called, so the
stored row keeps its previous (empty) message list. -/
def create_data_crawl_report (ext : Ext) (now : Timestamp) (db : DB) (agency_id : Int)
    (catalog_url : String) : Except PyErr (DB × List ResultDict × ResultDict) :=
  let fetched := get_or_create_inspection ext now db catalog_url
  let db := fetched.1
  let response_id := idOfVal ((fetched.2).get "response_id")
  match db.getInspection? response_id with
  | none => Except.error ⟨"DoesNotExist", "URLInspection matching query does not exist."⟩
  | some response =>
      let contentVal :=
        match response.content with
        | some s => Val.vStr s
        | none => Val.vNone
      let encoding :=
        match response.encoding with
        | some e => if e != "" then e else response.apparent_encoding
        | none => response.apparent_encoding
      let parse_args := ResultDict.ofData [("content", contentVal), ("encoding", Val.vStr encoding)]
      match parse_json ext parse_args with
      | .error e => Except.error e
      | .ok result_dict =>
          let jsondata := result_dict.get "json"
          let returnval := ResultDict.ofData
            [("agency_id", Val.vInt agency_id), ("catalog_url", Val.vStr catalog_url)]
          let created := db.createReport agency_id Report.DATA_CATALOG_CRAWL (some catalog_url)
          let db := created.1
          let report := created.2
          if optTruthy jsondata then
            match jsondata with
            | some (Val.vJson j) =>
                match j.pyLen, j.pyIter with
                | some catalog_length, some items =>
                    let saved : ReportRec :=
                      ⟨report.id, report.agency_id, report.url, report.report_type,
                       report.messages ++
                         ["Data catalog contains " ++ toString catalog_length ++ " items"]⟩
                    let db := db.saveReport saved
                    let returnval := returnval.set "report_id" (Val.vInt report.id)
                    let dispatched := items.map (fun item =>
                      ResultDict.ofData
                        [("agency_id", Val.vInt agency_id), ("report_id", Val.vInt report.id),
                         ("catalog_url", Val.vStr catalog_url), ("item", Val.vJson item)])
                    Except.ok (db, dispatched, returnval)
                | _, _ => Except.error ⟨"TypeError", "object has no len or is not iterable"⟩
            | _ => Except.error ⟨"TypeError", "object has no len or is not iterable"⟩
          else
            let returnval := returnval.set "report_id" (Val.vInt report.id)
            Except.ok (db, [], returnval)

/-- inspect_data_catalog_item_url (tasks.py lines 239-274). The item_info dict fetched
from the task argument is shared with the returnval copy, so tagging it with urlType
mutates both when the key is present; when it is absent, a fresh dict receives the tag.
A non-mapping item_info value never occurs at the call sites and is modelled as an
absent key. When a url is present the HEAD fetch runs and a new inspection row is
persisted on both the response and the no-response paths. -/
def inspect_data_catalog_item_url (ext : Ext) (now : Timestamp) (db : DB)
    (taskarg : ResultDict) : DB × ResultDict :=
  let returnval := ResultDict.ofResult taskarg
  let url := taskarg.get "url"
  let urlType := taskarg.get "urlType"
  let infoShared :=
    match taskarg.get "item_info" with
    | some (Val.vDict d) => some d
    | _ => none
  let item_info := infoShared.getD []
  let tag := optTruthy urlType
  let item_info :=
    if tag then dictSet item_info "urlType" (urlType.getD Val.vNone) else item_info
  let returnval :=
    if tag && infoShared.isSome then returnval.set "item_info" (Val.vDict item_info)
    else returnval
  let report_id := taskarg.get "report_id"
  if optTruthy url then
    let urlStr :=
      match url with
      | some (Val.vJson (Json.str s)) => s
      | some (Val.vStr s) => s
      | _ => ""
    let result := request_url ext urlStr "HEAD"
    let returnval : ResultDict := ⟨returnval.data, returnval.errors ++ result.errors⟩
    match result.get "response" with
    | some (Val.vResp resp) =>
        let created := db.create_from_response (some resp) urlStr now false
        let row := created.2
        let row : Inspection :=
          ⟨row.id, row.requested_url, row.created_at, row.parent_id,
           (if optTruthy report_id then some (idOfVal report_id) else row.report_id),
           row.status_code, row.content, row.encoding, row.apparent_encoding,
           result.errors, dictUpdate row.info item_info⟩
        let db := (created.1).saveInspection row
        (db, returnval.set "response_id" (Val.vInt row.id))
    | _ =>
        let row : Inspection :=
          ⟨db.nextInspectionId, urlStr, now, none,
           (if optTruthy report_id then some (idOfVal report_id) else none),
           none, none, none, "", result.errors, item_info⟩
        let db2 : DB :=
          ⟨db.inspections ++ [row], db.reports, db.nextInspectionId + 1, db.nextReportId⟩
        (db2, returnval.set "response_id" (Val.vInt row.id))
  else (db, returnval)

/-- save_response_info (tasks.py lines 404-430). The body mutates storage, but the
function ends without a return statement, so its Python return value is None; the
ResultDict it builds, including the saved flag, is discarded. Persistence errors
(missing rows) propagate, as the DatabaseError handler re-raises. -/
def save_response_info (db : DB) (taskarg : ResultDict) :
    Except PyErr (DB × Option ResultDict) :=
  let report_id := taskarg.get "report_id"
  let report_type :=
    match taskarg.get "report_type" with
    | some (Val.vStr s) => s
    | _ => Report.GENERIC_REPORT
  let response_id := taskarg.get "response_id"
  let response_info :=
    match taskarg.get "response_info" with
    | some (Val.vDict d) => d
    | _ => []
  let returnval := ResultDict.ofResult taskarg
  let response_info := dictDel (dictDel response_info "content") "json"
  if !response_info.isEmpty then
    if optTruthy report_id then
      match db.getReport? (idOfVal report_id) with
      | none => Except.error ⟨"DoesNotExist", "Report matching query does not exist."⟩
      | some report =>
          let db := db.saveReport
            ⟨report.id, report.agency_id, report.url, report_type, report.messages⟩
          if optTruthy response_id then
            match db.getInspection? (idOfVal response_id) with
            | none =>
                Except.error ⟨"DoesNotExist", "URLInspection matching query does not exist."⟩
            | some response =>
                let response : Inspection :=
                  ⟨response.id, response.requested_url, response.created_at,
                   response.parent_id, response.report_id, response.status_code,
                   response.content, response.encoding, response.apparent_encoding,
                   (if returnval.errors.length > 0 then response.errors ++ returnval.errors
                    else response.errors),
                   dictUpdate response.info response_info⟩
                Except.ok (db.saveInspection response, none)
          else Except.ok (db, none)
    else Except.ok (db, none)
  else Except.ok (db, none)

/-! Helper lemmas about the dict and error-list operations. -/

theorem dictGet_dictSet_self (d : Dict) (k : String) (v : Val) :
    dictGet (dictSet d k v) k = some v := by
  induction d with
  | nil => simp [dictSet, dictGet]
  | cons hd tl ih =>
      obtain ⟨a, b⟩ := hd
      by_cases h : a = k
      · simp [dictSet, dictGet, h]
      · simp [dictSet, dictGet, h, ih]

theorem dictGet_dictSet_ne (d : Dict) (k q : String) (v : Val) (h : k ≠ q) :
    dictGet (dictSet d k v) q = dictGet d q := by
  induction d with
  | nil => simp [dictSet, dictGet, h]
  | cons hd tl ih =>
      obtain ⟨a, b⟩ := hd
      by_cases h2 : a = k
      · subst h2; simp [dictSet, dictGet, h]
      · simp only [dictSet, dictGet, if_neg h2]
        by_cases h3 : a = q
        · simp [dictGet, h3]
        · simp [dictGet, h3, ih]

theorem dictHasKey_dictSet (d : Dict) (k q : String) (v : Val) :
    dictHasKey (dictSet d k v) q = (if k = q then true else dictHasKey d q) := by
  by_cases h : k = q
  · subst h; simp [dictHasKey, dictGet_dictSet_self]
  · simp [dictHasKey, dictGet_dictSet_ne _ _ _ _ h, h]

theorem foldl_add_error (l : List PyErr) (r : ResultDict) :
    l.foldl ResultDict.add_error r = ⟨r.data, r.errors ++ l.map PyErr.format⟩ := by
  induction l generalizing r with
  | nil => simp
  | cons e tl ih => simp [List.foldl, ih, ResultDict.add_error, List.append_assoc]

theorem argmaxKey_eq_none {α : Type} (f : α → Nat) (l : List α) :
    argmaxKey f l = none ↔ l = [] := by
  cases l with
  | nil => simp [argmaxKey]
  | cons x tl =>
      simp only [argmaxKey]
      cases argmaxKey f tl with
      | none => simp
      | some m =>
          by_cases h : f m > f x <;> simp [h]

theorem argmaxKey_mem {α : Type} (f : α → Nat) (l : List α) (m : α)
    (h : argmaxKey f l = some m) : m ∈ l := by
  induction l generalizing m with
  | nil => simp [argmaxKey] at h
  | cons x tl ih =>
      cases htl : argmaxKey f tl with
      | none =>
          simp only [argmaxKey, htl, Option.some.injEq] at h
          subst h; exact List.mem_cons_self _ _
      | some m2 =>
          simp only [argmaxKey, htl] at h
          by_cases hc : f m2 > f x
          · rw [if_pos hc] at h
            simp only [Option.some.injEq] at h
            subst h; exact List.mem_cons_of_mem _ (ih _ htl)
          · rw [if_neg hc] at h
            simp only [Option.some.injEq] at h
            subst h; exact List.mem_cons_self _ _

theorem argmaxKey_le {α : Type} (f : α → Nat) (l : List α) (m : α)
    (h : argmaxKey f l = some m) : ∀ x ∈ l, f x ≤ f m := by
  induction l generalizing m with
  | nil => simp [argmaxKey] at h
  | cons x tl ih =>
      cases htl : argmaxKey f tl with
      | none =>
          simp only [argmaxKey, htl, Option.some.injEq] at h
          subst h
          have : tl = [] := (argmaxKey_eq_none f tl).mp htl
          subst this
          intro y hy
          simp only [List.mem_singleton] at hy
          subst hy; exact le_refl _
      | some m2 =>
          simp only [argmaxKey, htl] at h
          by_cases hc : f m2 > f x
          · rw [if_pos hc] at h
            simp only [Option.some.injEq] at h
            subst h
            intro y hy
            rcases List.mem_cons.mp hy with h1 | h2
            · subst h1; omega
            · exact ih _ htl _ h2
          · rw [if_neg hc] at h
            simp only [Option.some.injEq] at h
            subst h
            intro y hy
            rcases List.mem_cons.mp hy with h1 | h2
            · subst h1; exact le_refl _
            · exact le_trans (ih _ htl _ h2) (by omega)

/-! Claim C9. -/

/-- C9: constructing a ResultDict from a prior stage envelope carries the prior error
list forward in order; add_error appends one formatted entry to that list; payload
assignment never touches the error list; and in the request_url stage, which folds the
url-checker envelope into its own, the output error list extends the checker error
list, never replacing it. -/
theorem resultdict_error_accumulation (r : ResultDict) (e : PyErr) (k : String) (v : Val)
    (ext : Ext) (url method : String) :
    (ResultDict.ofResult r).errors = r.errors ∧
    (r.add_error e).errors = r.errors ++ [e.format] ∧
    (r.set k v).errors = r.errors ∧
    ∃ extra, (request_url ext url method).errors
      = (check_and_correct_url ext url).errors ++ extra := by
  refine ⟨rfl, rfl, rfl, ?_⟩
  simp only [request_url]
  split
  · exact ⟨_, rfl⟩
  · split
    · exact ⟨_, rfl⟩
    · exact ⟨[], by simp [ResultDict.set, ResultDict.ofResult]⟩

/-! Claim C6. -/

/-- C6: when request preparation fails with a missing scheme and the retry on the
http-prefixed url succeeds, check_and_correct_url returns the prefixed url as
corrected_url and records exactly one error, the one of the original attempt. The
embedding of the task is a total function, so no exception escapes. -/
theorem check_and_correct_url_missing_scheme (ext : Ext) (url : String) (e : PyErr)
    (h1 : ext.prepare url = PrepResult.missingSchema e)
    (h2 : ext.prepare ("http://" ++ url) = PrepResult.ok ("http://" ++ url)) :
    (check_and_correct_url ext url).get "corrected_url"
      = some (Val.vStr ("http://" ++ url)) ∧
    (check_and_correct_url ext url).errors = [e.format] := by
  simp only [check_and_correct_url, h1, h2]
  constructor
  · simp [ResultDict.get, ResultDict.set, ResultDict.add_error, ResultDict.ofData,
      dictGet, dictSet]
  · simp [ResultDict.set, ResultDict.add_error, ResultDict.ofData]

def extC6 : Ext :=
  ⟨fun u => if u = "agency.gov/data.json"
            then PrepResult.missingSchema ⟨"MissingSchema", "Invalid URL"⟩
            else PrepResult.ok u,
   fun _ _ => Except.error ⟨"ConnectionError", "no network"⟩,
   fun _ _ => Except.error ⟨"JSONDecodeError", "no json"⟩,
   fun c _ => c,
   fun _ => Except.error ⟨"ValueError", "no json"⟩,
   none,
   fun _ => []⟩

/-- Witness for C6 at a scheme-less url against a preparation collaborator that accepts
exactly the http-prefixed urls. -/
theorem check_and_correct_url_missing_scheme_witness :
    (check_and_correct_url extC6 "agency.gov/data.json").get "corrected_url"
      = some (Val.vStr ("http://" ++ "agency.gov/data.json")) ∧
    (check_and_correct_url extC6 "agency.gov/data.json").errors
      = [PyErr.format ⟨"MissingSchema", "Invalid URL"⟩] :=
  check_and_correct_url_missing_scheme extC6 "agency.gov/data.json"
    ⟨"MissingSchema", "Invalid URL"⟩ rfl rfl

/-! Claim C7. -/

/-- C7: on string content for which the strict decoder and then the lenient decoder
both fail, parse_json returns normally (no exception escapes), with no json value,
with parse_errors set true, and with both decoder errors recorded in order. -/
theorem parse_json_malformed (ext : Ext) (t : ResultDict) (c : String) (e1 e2 : PyErr)
    (hc : t.get "content" = some (Val.vStr c))
    (h1 : ext.jsonLoads c (parse_json_encoding t) = Except.error e1)
    (h2 : ext.ujsonLoads (ext.decodeReplace c (parse_json_encoding t)) = Except.error e2) :
    ∃ r, parse_json ext t = Except.ok r ∧
      r.get "json" = some Val.vNone ∧
      r.get "parse_errors" = some (Val.vBool true) ∧
      r.errors = [e1.format, e2.format] := by
  refine ⟨((((ResultDict.ofData []).add_error e1).add_error e2).set "json" Val.vNone).set
      "parse_errors" (Val.vBool true), ?_, ?_, ?_, ?_⟩
  · simp only [parse_json, hc, h1, h2]
  · simp [ResultDict.get, ResultDict.set, ResultDict.add_error, ResultDict.ofData,
      dictGet, dictSet]
  · simp [ResultDict.get, ResultDict.set, ResultDict.add_error, ResultDict.ofData,
      dictGet, dictSet]
  · simp [ResultDict.set, ResultDict.add_error, ResultDict.ofData, PyErr.format]

def extC7 : Ext :=
  ⟨fun u => PrepResult.ok u,
   fun _ _ => Except.error ⟨"ConnectionError", "no network"⟩,
   fun _ _ => Except.error ⟨"JSONDecodeError", "No JSON object could be decoded"⟩,
   fun c _ => c,
   fun _ => Except.error ⟨"ValueError", "Expected object or value"⟩,
   none,
   fun _ => []⟩

def taskargC7 : ResultDict := ResultDict.ofData [("content", Val.vStr "Not Found")]

/-- Witness for C7 on a content string both decoders reject. -/
theorem parse_json_malformed_witness :
    ∃ r, parse_json extC7 taskargC7 = Except.ok r ∧
      r.get "json" = some Val.vNone ∧
      r.get "parse_errors" = some (Val.vBool true) ∧
      r.errors = [PyErr.format ⟨"JSONDecodeError", "No JSON object could be decoded"⟩,
                  PyErr.format ⟨"ValueError", "Expected object or value"⟩] :=
  parse_json_malformed extC7 taskargC7 "Not Found"
    ⟨"JSONDecodeError", "No JSON object could be decoded"⟩
    ⟨"ValueError", "Expected object or value"⟩ rfl rfl rfl

/-! Claim C5. -/

/-- C5: save_response_info never returns an envelope: whenever it completes without an
exception, the returned value is None, because the function body ends without a return
statement and the ResultDict it builds is discarded. -/
theorem save_response_info_never_returns_value (db : DB) (t : ResultDict)
    (r : DB × Option ResultDict) (h : save_response_info db t = Except.ok r) :
    r.2 = none := by
  simp only [save_response_info] at h
  repeat' split at h
  all_goals first
    | exact Except.noConfusion h
    | (injection h with h2; rw [← h2])

def dbC5 : DB := ⟨[], [], 1, 1⟩

/-- Witness for C5 on the empty task argument. -/
theorem save_response_info_never_returns_value_witness :
    ∃ r, save_response_info dbC5 (ResultDict.ofData []) = Except.ok r ∧ r.2 = none :=
  ⟨(dbC5, none), rfl,
   save_response_info_never_returns_value dbC5 (ResultDict.ofData []) (dbC5, none) rfl⟩

/-! Claim C1. -/

def itemC1 : Json := Json.obj [("distribution", Json.arr
  [Json.obj [("accessURL", Json.str "http://ex.gov/data1.csv")],
   Json.obj [("accessURL", Json.str "http://ex.gov/data2.csv")]])]

def dbC1 : DB :=
  ⟨[], [⟨1, 4, some "http://ex.gov/data.json", Report.DATA_CATALOG_CRAWL, []⟩], 1, 2⟩

def taskargC1 : ResultDict := ResultDict.ofData
  [("agency_id", Val.vInt 4), ("report_id", Val.vInt 1),
   ("catalog_url", Val.vStr "http://ex.gov/data.json"), ("item", Val.vJson itemC1)]

/-- C1: on an item whose only url-bearing field is a distribution list with two
accessURL entries, inspect_data_catalog_item dispatches zero check tasks, not two: the
distribution loop applies find_tasks to the item again instead of to each entry, so the
run falls into the no-urls branch and appends the no-urls message to the report. -/
theorem inspect_item_ignores_distribution_urls :
    (inspect_data_catalog_item dbC1 taskargC1).map
      (fun r => (r.2.length, r.1.reports.map (fun rep => rep.messages))) =
    Except.ok (0, [["No urls found for catalog item titled \x27No title provided.\x27"]]) := by
  rfl

/-! Claim C2. -/

def extC2 : Ext :=
  ⟨fun u => PrepResult.ok u,
   fun _ _ => Except.ok ⟨"http://agency.gov/data.json", 404, some "Not Found", none, "utf-8"⟩,
   fun _ _ => Except.error ⟨"JSONDecodeError", "No JSON object could be decoded"⟩,
   fun c _ => c,
   fun _ => Except.error ⟨"ValueError", "Expected object or value"⟩,
   none,
   fun _ => []⟩

def tsC2 : Timestamp := ⟨2014, 8, 12, 600⟩

def dbC2 : DB := ⟨[], [], 1, 1⟩

/-- C2: when the catalog url answers 404 with a non-JSON body, the crawl run creates a
report and dispatches zero item tasks, but the persisted report carries no message at
all: the failure message of the no-json branch is appended only to the in-memory report
object and no save call follows. -/
theorem crawl_report_failure_message_not_persisted :
    (create_data_crawl_report extC2 tsC2 dbC2 4 "http://agency.gov/data.json").map
      (fun r => (r.2.1.length, r.1.reports.map (fun rep => rep.messages))) =
    Except.ok (0, [[]]) := by
  rfl

/-! Claim C10. -/

theorem hasKey_false_get (r : ResultDict) (k : String) (h : r.hasKey k = false) :
    r.get k = none := by
  unfold ResultDict.hasKey dictHasKey at h
  unfold ResultDict.get
  cases hg : dictGet r.data k with
  | none => rfl
  | some v => rw [hg] at h; simp at h

/-- C10: when the task argument carries no url key, inspect_data_catalog_item_url
leaves the storage untouched, keeps the input error list, keeps every input payload
key, and its result has no response_id key, given that the input, like every task dict
built by the item inspector, carries none. The embedding of the task is a total
function, so no exception escapes on this path. -/
theorem inspect_item_url_without_url (ext : Ext) (now : Timestamp) (db : DB)
    (t : ResultDict) (hu : t.hasKey "url" = false) (hr : t.hasKey "response_id" = false) :
    (inspect_data_catalog_item_url ext now db t).1 = db ∧
    (inspect_data_catalog_item_url ext now db t).2.errors = t.errors ∧
    (∀ k, t.hasKey k = true → (inspect_data_catalog_item_url ext now db t).2.hasKey k = true) ∧
    (inspect_data_catalog_item_url ext now db t).2.hasKey "response_id" = false := by
  have hget : t.get "url" = none := hasKey_false_get t "url" hu
  have key : ∃ rv, inspect_data_catalog_item_url ext now db t = (db, rv) ∧
      (rv = ResultDict.ofResult t ∨
       ∃ x, rv = (ResultDict.ofResult t).set "item_info" x) := by
    simp only [inspect_data_catalog_item_url, hget, optTruthy, Bool.false_eq_true,
      if_false]
    split
    · exact ⟨_, rfl, Or.inr ⟨_, rfl⟩⟩
    · exact ⟨_, rfl, Or.inl rfl⟩
  obtain ⟨rv, heq, hcase⟩ := key
  rw [heq]
  rcases hcase with hc | ⟨x, hc⟩ <;> subst hc
  · exact ⟨rfl, rfl, fun k hk => hk, hr⟩
  · refine ⟨rfl, rfl, ?_, ?_⟩
    · intro k hk
      show dictHasKey (dictSet t.data "item_info" x) k = true
      rw [dictHasKey_dictSet]
      split
      · rfl
      · exact hk
    · show dictHasKey (dictSet t.data "item_info" x) "response_id" = false
      rw [dictHasKey_dictSet]
      rw [if_neg (by decide)]
      exact hr

def extC10 : Ext :=
  ⟨fun u => PrepResult.ok u,
   fun _ _ => Except.error ⟨"ConnectionError", "no network"⟩,
   fun _ _ => Except.error ⟨"JSONDecodeError", "no json"⟩,
   fun c _ => c,
   fun _ => Except.error ⟨"ValueError", "no json"⟩,
   none,
   fun _ => []⟩

def dbC10 : DB := ⟨[], [], 5, 3⟩

def tsC10 : Timestamp := ⟨2014, 8, 12, 615⟩

def taskargC10 : ResultDict :=
  ⟨[("agency_id", Val.vInt 4), ("report_id", Val.vInt 1),
    ("item_info", Val.vDict [("title", Val.vStr "Data")]),
    ("urlType", Val.vStr "accessURL")],
   ["MissingSchema: Invalid URL"]⟩

/-- Witness for C10 on a task dict with metadata but no url key. -/
theorem inspect_item_url_without_url_witness :
    (inspect_data_catalog_item_url extC10 tsC10 dbC10 taskargC10).1 = dbC10 ∧
    (inspect_data_catalog_item_url extC10 tsC10 dbC10 taskargC10).2.errors
      = taskargC10.errors ∧
    (∀ k, taskargC10.hasKey k = true →
      (inspect_data_catalog_item_url extC10 tsC10 dbC10 taskargC10).2.hasKey k = true) ∧
    (inspect_data_catalog_item_url extC10 tsC10 dbC10 taskargC10).2.hasKey "response_id"
      = false :=
  inspect_item_url_without_url extC10 tsC10 dbC10 taskargC10 (by decide) (by decide)

/-! Claim C3. -/

/-- C3: the validator output distinguishes the no-schema-configured state from the
schema-loaded-but-document-invalid state: on the same task argument with a truthy
parsed document, a run with no schema leaves the error list unchanged while a run with
a loaded truthy schema and a document with violations appends capped violation errors,
so the two outputs differ. -/
theorem validate_no_schema_distinct_from_invalid (ext1 ext2 : Ext) (t : ResultDict)
    (j s : Json)
    (hj : t.get "json" = some (Val.vJson j)) (hjt : j.truthy = true)
    (h1 : ext1.catalog_schema = none)
    (h2 : ext2.catalog_schema = some s) (hst : s.truthy = true)
    (hinv : ext2.iterErrors j ≠ []) :
    validate_json_catalog ext1 t ≠ validate_json_catalog ext2 t := by
  have e1 : (validate_json_catalog ext1 t).errors = t.errors := by
    simp only [validate_json_catalog, hj, h1, schemaTruthy, Bool.and_false]
    split <;> rfl
  have hne : (ext2.iterErrors j).isEmpty = false := by
    cases hll : ext2.iterErrors j with
    | nil => exact absurd hll hinv
    | cons a l => rfl
  have e2 : (validate_json_catalog ext2 t).errors
      = t.errors ++ ((ext2.iterErrors j).take SCHEMA_ERROR_LIMIT).map PyErr.format := by
    simp only [validate_json_catalog, hj, h2, schemaTruthy, hjt, hst, Bool.and_self,
      if_true, validatorIsValid, hne, Bool.false_eq_true, if_false, foldl_add_error]
    split <;> rfl
  intro hcontra
  have heq : (validate_json_catalog ext1 t).errors = (validate_json_catalog ext2 t).errors := by
    rw [hcontra]
  rw [e1, e2] at heq
  have hlen := congrArg List.length heq
  rw [List.length_append, List.length_map, List.length_take] at hlen
  have hpos : 0 < (ext2.iterErrors j).length := List.length_pos.mpr hinv
  have h100 : SCHEMA_ERROR_LIMIT = 100 := rfl
  rw [h100] at hlen
  omega

def extC3a : Ext :=
  ⟨fun u => PrepResult.ok u,
   fun _ _ => Except.error ⟨"ConnectionError", "no network"⟩,
   fun _ _ => Except.error ⟨"JSONDecodeError", "no json"⟩,
   fun c _ => c,
   fun _ => Except.error ⟨"ValueError", "no json"⟩,
   none,
   fun _ => []⟩

def extC3b : Ext :=
  ⟨fun u => PrepResult.ok u,
   fun _ _ => Except.error ⟨"ConnectionError", "no network"⟩,
   fun _ _ => Except.error ⟨"JSONDecodeError", "no json"⟩,
   fun c _ => c,
   fun _ => Except.error ⟨"ValueError", "no json"⟩,
   some (Json.obj [("type", Json.str "array")]),
   fun _ => [⟨"ValidationError", "1 is not of type object"⟩]⟩

def taskargC3 : ResultDict := ResultDict.ofData
  [("json", Val.vJson (Json.arr [Json.num 1])), ("response_info", Val.vDict [])]

/-- Witness for C3: the same task argument run with no schema and with a loaded schema
over a validator that rejects the document. -/
theorem validate_no_schema_distinct_witness :
    validate_json_catalog extC3a taskargC3 ≠ validate_json_catalog extC3b taskargC3 :=
  validate_no_schema_distinct_from_invalid extC3a extC3b taskargC3
    (Json.arr [Json.num 1]) (Json.obj [("type", Json.str "array")])
    rfl rfl rfl rfl rfl (by decide)

/-! Claim C8. -/

def extC8cx : Ext :=
  ⟨fun u => PrepResult.ok u,
   fun _ _ => Except.error ⟨"ConnectionError", "no network"⟩,
   fun _ _ => Except.error ⟨"JSONDecodeError", "no json"⟩,
   fun c _ => c,
   fun _ => Except.error ⟨"ValueError", "no json"⟩,
   some (Json.obj [("type", Json.str "array")]),
   fun _ => []⟩

def taskargC8cx : ResultDict := ResultDict.ofData
  [("json", Val.vJson (Json.arr [])), ("response_info", Val.vDict [])]

/-- C8 counterexample: with a schema loaded and a validator that reports no violations
for the empty-array document (the document satisfies the schema), validate_json_catalog
still reports is_valid false: the guard tests Python truthiness of the parsed value, an
empty array is falsy, and validation is skipped. -/
theorem validate_satisfying_empty_doc_reported_invalid :
    extC8cx.iterErrors (Json.arr []) = [] ∧
    extC8cx.catalog_schema = some (Json.obj [("type", Json.str "array")]) ∧
    (validate_json_catalog extC8cx taskargC8cx).get "response_info"
      = some (Val.vDict [("is_valid_data_catalog", Val.vBool false)]) :=
  ⟨rfl, rfl, rfl⟩

/-- C8 amended: with a schema loaded and a truthy parsed document, a document the
validator finds no violations for yields is_valid true with no recorded validation
errors, and a document with violations yields is_valid false with the recorded
violation errors capped at SCHEMA_ERROR_LIMIT, even when more violations exist. -/
theorem validate_json_catalog_amended (ext : Ext) (t : ResultDict) (j s : Json) (d : Dict)
    (hj : t.get "json" = some (Val.vJson j)) (hjt : j.truthy = true)
    (hs : ext.catalog_schema = some s) (hst : s.truthy = true)
    (hd : t.get "response_info" = some (Val.vDict d)) :
    (ext.iterErrors j = [] →
      (validate_json_catalog ext t).get "response_info"
        = some (Val.vDict (dictSet d "is_valid_data_catalog" (Val.vBool true))) ∧
      (validate_json_catalog ext t).errors = t.errors) ∧
    (ext.iterErrors j ≠ [] →
      (validate_json_catalog ext t).get "response_info"
        = some (Val.vDict (dictSet d "is_valid_data_catalog" (Val.vBool false))) ∧
      (validate_json_catalog ext t).errors.length
        = t.errors.length + min SCHEMA_ERROR_LIMIT (ext.iterErrors j).length) := by
  have hd2 : dictGet t.data "response_info" = some (Val.vDict d) := hd
  have hj2 : dictGet t.data "json" = some (Val.vJson j) := hj
  constructor
  · intro hval
    have hfin : validate_json_catalog ext t
        = ((ResultDict.ofResult t).set "response_info"
            (Val.vDict (dictSet d "is_valid_data_catalog" (Val.vBool true)))).set
            "report_type" (Val.vStr Report.DATA_CATALOG_VALIDATION) := by
      simp only [validate_json_catalog, hj2, hs, schemaTruthy, hjt, hst, Bool.and_true,
        if_true, validatorIsValid, hval, List.isEmpty_nil, ResultDict.ofResult,
        ResultDict.get, hd2]
    rw [hfin]
    constructor
    · show dictGet (dictSet (dictSet t.data "response_info"
          (Val.vDict (dictSet d "is_valid_data_catalog" (Val.vBool true))))
          "report_type" (Val.vStr Report.DATA_CATALOG_VALIDATION)) "response_info" = _
      rw [dictGet_dictSet_ne _ _ _ _ (by decide), dictGet_dictSet_self]
    · rfl
  · intro hval
    have hne : (ext.iterErrors j).isEmpty = false := by
      cases hll : ext.iterErrors j with
      | nil => exact absurd hll hval
      | cons a l => rfl
    have hfin : validate_json_catalog ext t
        = (ResultDict.mk t.data
            (t.errors ++ ((ext.iterErrors j).take SCHEMA_ERROR_LIMIT).map PyErr.format)
            |>.set "response_info"
              (Val.vDict (dictSet d "is_valid_data_catalog" (Val.vBool false)))).set
            "report_type" (Val.vStr Report.DATA_CATALOG_VALIDATION) := by
      simp only [validate_json_catalog, hj2, hs, schemaTruthy, hjt, hst, Bool.and_true,
        if_true, validatorIsValid, hne, Bool.false_eq_true, if_false, foldl_add_error,
        ResultDict.ofResult, ResultDict.get, hd2]
    rw [hfin]
    constructor
    · show dictGet (dictSet (dictSet t.data "response_info"
          (Val.vDict (dictSet d "is_valid_data_catalog" (Val.vBool false))))
          "report_type" (Val.vStr Report.DATA_CATALOG_VALIDATION)) "response_info" = _
      rw [dictGet_dictSet_ne _ _ _ _ (by decide), dictGet_dictSet_self]
    · show (t.errors ++ ((ext.iterErrors j).take SCHEMA_ERROR_LIMIT).map PyErr.format).length = _
      rw [List.length_append, List.length_map, List.length_take]

def extC8w : Ext :=
  ⟨fun u => PrepResult.ok u,
   fun _ _ => Except.error ⟨"ConnectionError", "no network"⟩,
   fun _ _ => Except.error ⟨"JSONDecodeError", "no json"⟩,
   fun c _ => c,
   fun _ => Except.error ⟨"ValueError", "no json"⟩,
   some (Json.obj [("type", Json.str "array")]),
   fun _ => List.replicate 150 ⟨"ValidationError", "item is not valid"⟩⟩

def taskargC8w : ResultDict := ResultDict.ofData
  [("json", Val.vJson (Json.arr [Json.num 1])), ("response_info", Val.vDict [])]

/-- Witness for the amended C8 on a document with 150 violations: is_valid is false and
exactly 100 violation errors are recorded. -/
theorem validate_json_catalog_amended_witness :
    (validate_json_catalog extC8w taskargC8w).get "response_info"
      = some (Val.vDict [("is_valid_data_catalog", Val.vBool false)]) ∧
    (validate_json_catalog extC8w taskargC8w).errors.length = 100 := by
  have h := (validate_json_catalog_amended extC8w taskargC8w (Json.arr [Json.num 1])
    (Json.obj [("type", Json.str "array")]) [] rfl rfl rfl rfl rfl).2 (by decide)
  refine ⟨h.1, ?_⟩
  rw [h.2]
  decide

/-! Claim C4. -/

def extC4 : Ext :=
  ⟨fun u => PrepResult.ok u,
   fun _ _ => Except.ok ⟨"http://a.gov/x", 200, some "ok", some "utf-8", "utf-8"⟩,
   fun _ _ => Except.error ⟨"JSONDecodeError", "no json"⟩,
   fun c _ => c,
   fun _ => Except.error ⟨"ValueError", "no json"⟩,
   none,
   fun _ => []⟩

def inspC4 : Inspection :=
  ⟨1, "http://a.gov/x", ⟨2014, 1, 5, 600⟩, none, none, some 200, some "ok",
   some "utf-8", "utf-8", [], []⟩

def dbC4 : DB := ⟨[inspC4], [], 2, 1⟩

def nowC4 : Timestamp := ⟨2014, 2, 5, 700⟩

/-- C4 counterexample: no stored inspection for the url is parentless and created on
the same calendar day as the request (the only one dates from an earlier month), so by
the claim the task should fetch and persist a new record; yet get_or_create_inspection
reuses the old record, returning its id with the storage unchanged, because the lookup
compares only the day of month of the latest stored timestamp and never consults the
request date. -/
theorem get_or_create_reuses_across_months :
    (dbC4.inspections.all (fun i =>
      !(i.requested_url == "http://a.gov/x" && i.parent_id.isNone
        && i.created_at.sameCalendarDay nowC4)) = true) ∧
    get_or_create_inspection extC4 nowC4 dbC4 "http://a.gov/x"
      = (dbC4, ResultDict.ofData
          [("response_id", Val.vInt 1), ("url", Val.vStr "http://a.gov/x")]) :=
  ⟨rfl, rfl⟩

/-- C4 amended: get_or_create_inspection reuses a stored record exactly when some
stored inspection for the exact url, with no parent, was created on the same day of
month as the latest stored inspection timestamp across all urls (the reuse_candidates
query); when it reuses, it returns the id of the most recent such record with the
storage unchanged, and otherwise it invokes the fetcher with GET and persists exactly
one new parentless record for the url, returning the new id. -/
theorem get_or_create_inspection_characterization (ext : Ext) (now : Timestamp)
    (db : DB) (url : String) :
    (reuse_candidates db url ≠ [] →
      (get_or_create_inspection ext now db url).1 = db ∧
      ∃ i, i ∈ reuse_candidates db url ∧
        (∀ q, q ∈ reuse_candidates db url → q.created_at.key ≤ i.created_at.key) ∧
        (get_or_create_inspection ext now db url).2.get "response_id"
          = some (Val.vInt i.id)) ∧
    (reuse_candidates db url = [] →
      ∃ r, (get_or_create_inspection ext now db url).1.inspections
          = db.inspections ++ [r] ∧
        r.requested_url = url ∧ r.created_at = now ∧ r.parent_id = none ∧
        r.id = db.nextInspectionId ∧
        (get_or_create_inspection ext now db url).2.get "response_id"
          = some (Val.vInt r.id) ∧
        (get_or_create_inspection ext now db url).1.reports = db.reports) := by
  constructor
  · intro hne
    obtain ⟨m, hm⟩ : ∃ m, latestInspection (reuse_candidates db url) = some m := by
      cases hl : latestInspection (reuse_candidates db url) with
      | none =>
          unfold latestInspection at hl
          exact absurd ((argmaxKey_eq_none _ _).mp hl) hne
      | some m => exact ⟨m, rfl⟩
    have hdef : get_or_create_inspection ext now db url
        = (db, ResultDict.ofData
            [("response_id", Val.vInt m.id), ("url", Val.vStr url)]) := by
      simp only [get_or_create_inspection, hm]
    rw [hdef]
    refine ⟨rfl, m, argmaxKey_mem _ _ _ hm,
      fun q hq => argmaxKey_le _ _ _ hm q hq, ?_⟩
    simp [ResultDict.get, ResultDict.ofData, dictGet]
  · intro hnil
    have hm : latestInspection (reuse_candidates db url) = none := by
      rw [hnil]; rfl
    have hdef : get_or_create_inspection ext now db url
        = ((db.create_from_response
              (match (request_url ext url "GET").get "response" with
                | some (Val.vResp r) => some r
                | _ => none) url now true).1,
           ResultDict.ofData
             [("response_id", Val.vInt (db.create_from_response
                 (match (request_url ext url "GET").get "response" with
                   | some (Val.vResp r) => some r
                   | _ => none) url now true).2.id),
              ("url", Val.vStr url)]) := by
      simp only [get_or_create_inspection, hm]
    rw [hdef]
    refine ⟨_, rfl, rfl, rfl, rfl, ?_, ?_, rfl⟩ <;>
      simp [ResultDict.get, ResultDict.ofData, dictGet, DB.create_from_response]

/-- Witness for the amended C4 at a state whose reuse query is nonempty: the record is
reused and the storage is unchanged. -/
theorem get_or_create_inspection_characterization_witness :
    (get_or_create_inspection extC4 nowC4 dbC4 "http://a.gov/x").1 = dbC4 ∧
    ∃ i, i ∈ reuse_candidates dbC4 "http://a.gov/x" ∧
      (∀ q, q ∈ reuse_candidates dbC4 "http://a.gov/x" →
        q.created_at.key ≤ i.created_at.key) ∧
      (get_or_create_inspection extC4 nowC4 dbC4 "http://a.gov/x").2.get "response_id"
        = some (Val.vInt i.id) :=
  (get_or_create_inspection_characterization extC4 nowC4 dbC4 "http://a.gov/x").1
    (by decide)

end Thezombies
